import Mathlib

/-!
Verification of the http-client worker (Go) against its specification.

Shallow embedding of:
  * `limitmap/limitmap.go` — counting semaphore and keyed limit map;
  * `worker_main.go` — client fetch, worker download, redirect loop,
    robots consultation, report encoding.

Go `uint` values are 64-bit unsigned integers; they are modelled as `Nat`
with explicit wraparound modulo `2^64` where the source can underflow.
Code that panics is modelled with the `Outcome` type. Blocking operations
are given a sequential semantics: an operation that would block returns
`none`. The mutual recursion of `Worker.Fetch` and `Worker.AskRobots` is
indexed by a fuel bounding the recursion depth; `none` means the
computation did not finish within that depth.
-/

/-- Wraparound modulus of Go's 64-bit `uint`. -/
def U64 : Nat := 18446744073709551616

/-- Result of running a piece of Go code that may `panic`. -/
inductive Outcome (α : Type) where
  | ok : α → Outcome α
  | fatal : String → Outcome α
deriving DecidableEq, Repr

/-- Semaphore (limitmap.go 39-47): `refs`, `max`, `value`. `value` is a Go
`uint`. -/
structure Semaphore where
  refs : Int
  max : Nat
  value : Nat
deriving DecidableEq, Repr

/-- NewSemaphore (limitmap.go 49-54): zero refs and value. -/
def NewSemaphore (max : Nat) : Semaphore :=
  { refs := 0, max := max, value := 0 }

/-- Semaphore.Acquire (limitmap.go 56-73), sequential semantics: the loop
body increments `value` and returns it as soon as `value + 1 <= max`;
otherwise the caller blocks on the condition variable (`none`). -/
def Semaphore.tryAcquire (s : Semaphore) : Option (Semaphore × Nat) :=
  if s.value + 1 ≤ s.max then some ({ s with value := s.value + 1 }, s.value + 1)
  else none

/-- Semaphore.Release (limitmap.go 75-88). `s.value--` on a Go `uint`
wraps modulo `2^64`, and the subsequent `s.value < 0` test can never hold
for an unsigned integer, so the `"Semaphore Release without Acquire"`
panic is unreachable. The named return `result` is never assigned and so
is returned as its zero value `0`. -/
def Semaphore.Release (s : Semaphore) : Outcome (Semaphore × Nat) :=
  let v := (s.value + (U64 - 1)) % U64
  if v < 0 then Outcome.fatal "Semaphore Release without Acquire"
  else Outcome.ok ({ s with value := v }, 0)

/-- One semaphore operation, for trace-based reasoning. -/
inductive SemOp where
  | acq : SemOp
  | rel : SemOp
deriving DecidableEq, Repr

/-- One step of the sequential semaphore semantics: `acq` is
`Semaphore.tryAcquire` (blocking = `none`), `rel` is `Semaphore.Release`
(a panic would also end the trace, modelled as `none`). -/
def semStep (s : Semaphore) : SemOp → Option Semaphore
  | SemOp.acq => (s.tryAcquire).map Prod.fst
  | SemOp.rel =>
    match s.Release with
    | Outcome.ok (s', _) => some s'
    | Outcome.fatal _ => none

/-- Run a list of semaphore operations, returning the state after each
completed operation. -/
def semTrace (s : Semaphore) : List SemOp → Option (List Semaphore)
  | [] => some []
  | op :: ops => (semStep s op).bind (fun s' => (semTrace s' ops).map (s' :: ·))

/-- `balancedFrom d ops`: starting with `d` outstanding acquires, every
release in `ops` is preceded by a matching acquire. -/
def balancedFrom : Nat → List SemOp → Bool
  | _, [] => true
  | d, SemOp.acq :: ops => balancedFrom (d + 1) ops
  | d, SemOp.rel :: ops => decide (0 < d) && balancedFrom (d - 1) ops

/-- Per-key holder counts of a LimitMap (limitmap.go 90-116). -/
def lookupHolders (st : List (String × Nat)) (k : String) : Nat :=
  match st.find? (fun p => p.1 == k) with
  | some p => p.2
  | none => 0

/-- Replace (or insert) the holder count of key `k`. -/
def setHolders (st : List (String × Nat)) (k : String) (v : Nat) : List (String × Nat) :=
  match st with
  | [] => [(k, v)]
  | p :: rest => if p.1 == k then (k, v) :: rest else p :: setHolders rest k v

/-- LimitMap.Acquire (limitmap.go 102-116), sequential semantics:
find-or-insert the key's semaphore, then acquire it; at capacity the
caller blocks (`none`). -/
def limitMapTryAcquire (st : List (String × Nat)) (key : String) (mx : Nat) :
    Option (List (String × Nat)) :=
  if lookupHolders st key + 1 ≤ mx then some (setHolders st key (lookupHolders st key + 1))
  else none

/-- Parsed URL, as used by the worker (scheme, host, path). -/
structure Url where
  scheme : String
  host : String
  path : String
deriving DecidableEq, Repr

/-- URL.String: reassemble `scheme://host path`. -/
def Url.toString (u : Url) : String := u.scheme ++ "://" ++ u.host ++ u.path

/-- An HTTP response as delivered by the Go http client. -/
structure HttpResponse where
  status : String
  statusCode : Nat
  headers : List (String × String)
  body : List Nat
deriving DecidableEq, Repr

/-- FetchResult (worker_main.go 268-279). The wall-clock fields
`FetchTime`/`TotalTime` are not modelled. -/
structure FetchResult where
  url : String
  success : Bool
  status : String
  statusCode : Nat
  headers : List (String × String)
  body : List Nat
  length : Int
deriving DecidableEq, Repr

/-- ErrorResult (worker_main.go 281-287): only Url and Status are set,
Success is false and the remaining fields are Go zero values. -/
def ErrorResult (url reason : String) : FetchResult :=
  { url := url, success := false, status := reason, statusCode := 0,
    headers := [], body := [], length := 0 }

/-- ShouldRedirect (worker_main.go 291-299). The Go http constants are
StatusMovedPermanently = 301, StatusFound = 302, StatusSeeOther = 303,
StatusTemporaryRedirect = 307. -/
def ShouldRedirect (statusCode : Nat) : Bool :=
  statusCode == 301 || statusCode == 302 || statusCode == 303 || statusCode == 307

/-- http.Header.Get: first value stored under the (canonical) key, or ""
when absent. -/
def headersGet (hs : List (String × String)) (k : String) : String :=
  match hs.find? (fun p => p.1 == k) with
  | some p => p.2
  | none => ""

/-- Client.fetch (worker_main.go 322-352): `http_client.Do` then
`io.Copy` of the body. On a transport error it returns
`ErrorResult(url, err)`; on a response it returns Success = true with the
response status, headers and body, and Length = number of body bytes
copied. The transport round-trip is an oracle argument. -/
def clientFetch (urlStr : String) (resp : Except String HttpResponse) : FetchResult :=
  match resp with
  | Except.error e => ErrorResult urlStr e
  | Except.ok r =>
    { url := urlStr, success := true, status := r.status,
      statusCode := r.statusCode, headers := r.headers, body := r.body,
      length := (r.body.length : Int) }

/-- Client.Abort (worker_main.go 318-320): `panic("Not implemented")`. -/
def ClientAbort : Outcome Unit := Outcome.fatal "Not implemented"

/-- Client.Fetch (worker_main.go 354-380): select between the round-trip
goroutine and the `TotalTimeout` timer. `timedOut` records which arm of
the select fires. On timeout the code first calls `client.Abort(req)` and
only then would build the `"Fetch timeout: <ms>"` result; `Abort` panics,
so a panic propagates and the result line is unreachable. -/
def ClientFetch (roundTrip : FetchResult) (timedOut : Bool) (urlStr : String)
    (totalTimeoutMs : Nat) : Outcome FetchResult :=
  if timedOut then
    match ClientAbort with
    | Outcome.fatal m => Outcome.fatal m
    | Outcome.ok _ =>
      Outcome.ok (ErrorResult urlStr ("Fetch timeout: " ++ ToString.toString totalTimeoutMs))
  else Outcome.ok roundTrip

/-- Worker configuration (worker_main.go 394-425). Timeout durations are
not modelled. -/
structure Worker where
  skipRobots : Bool
  skipBody : Bool
  followRedirects : Nat
  domainConcurrency : Nat
deriving DecidableEq, Repr

/-- Worker.Download (worker_main.go 447-465): build a GET request with the
bot User-Agent, call `client.Fetch`, and discard the body when SkipBody is
set. Executions in which the total timeout fires are modelled separately
(`ClientFetch`; that arm panics). -/
def Worker.Download (w : Worker) (net : Url → Except String HttpResponse) (u : Url) :
    FetchResult :=
  let result := clientFetch u.toString (net u)
  if w.skipBody then { result with body := [] } else result

/-- Worker.Download threaded through the per-host LimitMap holder state.
The Go body (worker_main.go 447-465) builds the request, calls
`client.Fetch` and applies SkipBody; it contains no LimitMap (or other
`DomainConcurrency`) operation, so the holder state passes through
untouched. -/
def Worker.DownloadSt (w : Worker) (net : Url → Except String HttpResponse) (u : Url)
    (st : List (String × Nat)) : FetchResult × List (String × Nat) :=
  (w.Download net u, st)

/-- Oracles for the parts of a fetch that live outside the repository:
the network round-trip, `robotstxt.FromResponseBytes` composed with
`robots.Test` (a parse outcome yielding a per-path predicate), and Go's
relative URL resolution `url.Parse` (method form). -/
structure Env where
  net : Url → Except String HttpResponse
  robots : Nat → List Nat → Except String (String → Except String Bool)
  parseRel : Url → String → Except String Url

/-- Placeholder for the nil FetchResult a `(false, nil)` return from
AskRobots would make Worker.Fetch dereference; `askRobotsGo` never
produces `(false, none)` (every `false` return in worker_main.go 526-560
carries a result), so this value is unreachable. -/
def nilDeref : FetchResult := ErrorResult "" "nil pointer dereference"

/-- The three mutually recursive entry points of the fetch engine at a
given recursion depth. -/
structure SysFuns where
  fetch : Url → Option (FetchResult × Nat)
  floop : Url → Nat → Url → Option (FetchResult × Nat)
  ask : Url → Option (Bool × Option FetchResult)

/-- The fetch engine, by recursion on the depth fuel.

* `fetch` is Worker.Fetch (worker_main.go 485-524): enter the redirect
  loop at `redirect = 0` with the original URL.
* `floop` is one iteration of the redirect loop: validate scheme/host,
  consult robots unless SkipRobots or the path is "/robots.txt", download,
  and on a redirect status resolve Location and loop while
  `redirect + 1 <= FollowRedirects`. The `Nat` in the result counts the
  downloads performed by this loop (hops).
* `ask` is Worker.AskRobots (worker_main.go 526-560): fetch
  `{scheme}://{host}/robots.txt` through Worker.Fetch, then run the robots
  parser and per-path test.

Every recursive call goes through `p`, the engine at depth one less;
`none` means the computation does not finish within the given depth. -/
def sys (w : Worker) (env : Env) : Nat → SysFuns
  | 0 => ⟨fun _ => none, fun _ _ _ => none, fun _ => none⟩
  | fuel + 1 =>
    let p := sys w env fuel
    { fetch := fun u => p.floop u 0 u
      floop := fun orig redirect u =>
        if u.scheme = "" ∨ u.host = "" then
          some (ErrorResult u.toString ("Incorrect URL: " ++ u.toString), 0)
        else
          let gate : Option (Option FetchResult) :=
            if w.skipRobots || u.path == "/robots.txt" then some none
            else
              match p.ask u with
              | none => none
              | some (true, _) => some none
              | some (false, some fr) => some (some fr)
              | some (false, none) => some (some nilDeref)
          match gate with
          | none => none
          | some (some fr) => some (fr, 0)
          | some none =>
            let result := w.Download env.net u
            if ShouldRedirect result.statusCode then
              match env.parseRel u (headersGet result.headers "Location") with
              | Except.error e => some (ErrorResult orig.toString e, 1)
              | Except.ok u2 =>
                if redirect + 1 ≤ w.followRedirects then
                  match p.floop orig (redirect + 1) u2 with
                  | none => none
                  | some (r, n) => some (r, n + 1)
                else some (result, 1)
            else some (result, 1)
      ask := fun u =>
        match p.fetch (Url.mk u.scheme u.host "/robots.txt") with
        | none => none
        | some (fr, _) =>
          if fr.success = false then
            some (false, some { fr with status := "Robots download error: " ++ fr.status })
          else
            match env.robots fr.statusCode fr.body with
            | Except.error e =>
              some (false, some { fr with status := "Robots parse error: " ++ e })
            | Except.ok test =>
              match test u.path with
              | Except.error e =>
                some (false, some (ErrorResult u.toString ("Robots test error: " ++ e)))
              | Except.ok allow =>
                if allow = false then
                  some (false, some (ErrorResult u.toString "Robots disallow"))
                else some (true, none) }

/-- Worker.Fetch at recursion depth `fuel`. -/
def fetchGo (w : Worker) (env : Env) (fuel : Nat) (u : Url) : Option (FetchResult × Nat) :=
  (sys w env fuel).fetch u

/-- The redirect loop of Worker.Fetch at recursion depth `fuel`. -/
def fetchLoopGo (w : Worker) (env : Env) (fuel : Nat) (orig : Url) (redirect : Nat)
    (u : Url) : Option (FetchResult × Nat) :=
  (sys w env fuel).floop orig redirect u

/-- Worker.AskRobots at recursion depth `fuel`. -/
def askRobotsGo (w : Worker) (env : Env) (fuel : Nat) (u : Url) :
    Option (Bool × Option FetchResult) :=
  (sys w env fuel).ask u

/-- `Worker.Fetch` diverges: it fails to produce a result at every
recursion depth. -/
def fetchDiverges (w : Worker) (env : Env) (u : Url) : Prop :=
  ∀ fuel, fetchGo w env fuel u = none

/-- The base64 standard alphabet (RFC 4648, used by Go's
`base64.StdEncoding`) as ASCII codes: A-Z, a-z, 0-9, '+', '/'. -/
def b64table : List Nat :=
  [65, 66, 67, 68, 69, 70, 71, 72, 73, 74, 75, 76, 77, 78, 79, 80, 81, 82,
   83, 84, 85, 86, 87, 88, 89, 90,
   97, 98, 99, 100, 101, 102, 103, 104, 105, 106, 107, 108, 109, 110, 111,
   112, 113, 114, 115, 116, 117, 118, 119, 120, 121, 122,
   48, 49, 50, 51, 52, 53, 54, 55, 56, 57, 43, 47]

/-- ASCII code of the alphabet character for a 6-bit group. -/
def b64chr (n : Nat) : Nat := b64table.getD n 0

/-- Index of an ASCII code in the base64 alphabet. -/
def b64idx (c : Nat) : Nat := List.findIdx (fun x => x == c) b64table

/-- `base64.StdEncoding.Encode`: bytes to ASCII codes, three input bytes
per four output characters, '=' (ASCII 61) padding. -/
def b64encode : List Nat → List Nat
  | [] => []
  | [b1] => [b64chr (b1 / 4), b64chr (b1 % 4 * 16), 61, 61]
  | [b1, b2] =>
    [b64chr (b1 / 4), b64chr (b1 % 4 * 16 + b2 / 16), b64chr (b2 % 16 * 4), 61]
  | b1 :: b2 :: b3 :: rest =>
    b64chr (b1 / 4) :: b64chr (b1 % 4 * 16 + b2 / 16) ::
      b64chr (b2 % 16 * 4 + b3 / 64) :: b64chr (b3 % 64) :: b64encode rest

/-- Base64 decoding of ASCII codes ('=' = 61 ends the data). -/
def b64decode : List Nat → List Nat
  | c1 :: c2 :: c3 :: c4 :: rest =>
    if c3 = 61 then [b64idx c1 * 4 + b64idx c2 / 16]
    else if c4 = 61 then
      [b64idx c1 * 4 + b64idx c2 / 16, b64idx c2 % 16 * 16 + b64idx c3 / 4]
    else
      (b64idx c1 * 4 + b64idx c2 / 16) ::
        (b64idx c2 % 16 * 16 + b64idx c3 / 4) ::
        (b64idx c3 % 4 * 64 + b64idx c4) :: b64decode rest
  | _ => []

/-- The JSON report record (worker_main.go 72-85), with `content` kept as
the base64 ASCII codes. The time fields are not modelled. -/
structure Report where
  key : String
  url : String
  success : Bool
  status : String
  statusCode : Nat
  headers : List (String × String)
  content : List Nat
  length : Int
deriving DecidableEq, Repr

/-- encodeResult (worker_main.go 68-120): copy the FetchResult fields,
add the caller-supplied Key, base64-encode the Body into Content, and copy
Length. The `json.Marshal` error-recovery path (108-117) does not change
Key, Content-encoding or Length and is not modelled. -/
def encodeResult (key : String) (result : FetchResult) : Report :=
  { key := key, url := result.url, success := result.success,
    status := result.status, statusCode := result.statusCode,
    headers := result.headers, content := b64encode result.body,
    length := result.length }

/-- Split a character list at the first occurrence of `"://"`. -/
def splitAtSep : List Char → Option (List Char × List Char)
  | ':' :: '/' :: '/' :: tail => some ([], tail)
  | c :: rest => (splitAtSep rest).map (fun p => (c :: p.1, p.2))
  | [] => none

/-- Lower-case every character (`strings.ToLower` on ASCII schemes). -/
def lowerChars (cs : List Char) : List Char := cs.map Char.toLower

/-- Model of Go `net/url` for input lines of the form `scheme://rest`:
`url.Parse` splits at the first `"://"` and forces the scheme to lower
case (net/url's parse ends with `url.Scheme = strings.ToLower(url.Scheme)`);
`URL.String` reassembles `scheme://rest`. Lines without the separator are
outside this model and mapped to `none`. -/
def parseAbsUrl (s : String) : Option (String × String) :=
  match splitAtSep s.data with
  | some (scheme, rest) => some (String.mk (lowerChars scheme), String.mk rest)
  | none => none

/-- `URL.String` on the model: reassemble the two components. -/
def urlUnparse (u : String × String) : String := u.1 ++ "://" ++ u.2

/-- The `key` field the worker emits for an input line: `processUrl`
(worker_main.go 183-194) passes `url.String()` of the parsed URL to
`encodeResult`, while the `stdinReader` error path (52-56) passes the raw
line. -/
def reportKeyModel (line : String) : String :=
  match parseAbsUrl line with
  | some u => urlUnparse u
  | none => line

/-- Worker with SkipBody set (`--skip-body`), redirects at the flag
default 10. -/
def skipBodyWorker : Worker :=
  { skipRobots := false, skipBody := true, followRedirects := 10, domainConcurrency := 2 }

/-- Worker with all flags at their `main` defaults. -/
def plainWorker : Worker :=
  { skipRobots := false, skipBody := false, followRedirects := 10, domainConcurrency := 2 }

/-- Worker with robots skipped and no redirects followed
(`--skip-robots --redirects=0`). -/
def noRedirectWorker : Worker :=
  { skipRobots := true, skipBody := false, followRedirects := 0, domainConcurrency := 2 }

/-- Worker obeying robots with one redirect allowed (`--redirects=1`). -/
def advWorker : Worker :=
  { skipRobots := false, skipBody := false, followRedirects := 1, domainConcurrency := 2 }

/-- A server that answers every request with `302 Found` and
`Location: /page2`; robots.txt is never parsed because its fetch
redirects. Relative resolution keeps scheme and host. -/
def advEnv : Env :=
  { net := fun _ => Except.ok ⟨"302 Found", 302, [("Location", "/page2")], []⟩
    robots := fun _ _ => Except.error "unreached"
    parseRel := fun u loc => Except.ok ⟨u.scheme, u.host, loc⟩ }

/-- The page the adversarial server redirects to. -/
def uPage2 : Url := ⟨"http", "h", "/page2"⟩

/-- The robots.txt URL of host `h`. -/
def uRobotsH : Url := ⟨"http", "h", "/robots.txt"⟩

/-- A server that answers every request with `200 OK` and an empty body,
whose robots.txt parses to a predicate disallowing every path. -/
def disallowEnv : Env :=
  { net := fun _ => Except.ok ⟨"200 OK", 200, [], []⟩
    robots := fun _ _ => Except.ok (fun _ => Except.ok false)
    parseRel := fun u loc => Except.ok ⟨u.scheme, u.host, loc⟩ }

/-- A server that answers every request with `200 OK` and body "hello". -/
def helloNet : Url → Except String HttpResponse :=
  fun _ => Except.ok ⟨"200 OK", 200, [], [104, 101, 108, 108, 111]⟩

/-- A URL under the adversarial host. -/
def uPageX : Url := ⟨"http", "h", "/x"⟩

/-- Evaluation of one `acq` step. -/
theorem semStep_acq (s : Semaphore) :
    semStep s SemOp.acq =
      if s.value + 1 ≤ s.max then some { s with value := s.value + 1 } else none := by
  simp only [semStep, Semaphore.tryAcquire]
  split <;> simp

/-- Evaluation of one `rel` step: the panic branch is unreachable, the
value wraps modulo `2^64`. -/
theorem semStep_rel (s : Semaphore) :
    semStep s SemOp.rel = some { s with value := (s.value + (U64 - 1)) % U64 } := by
  simp only [semStep, Semaphore.Release]
  rw [if_neg (Nat.not_lt_zero _)]

/-- Helper for C8: along any successfully completed, prefix-balanced
operation sequence the semaphore value never exceeds `max`. -/
theorem semTrace_bounded :
    ∀ (ops : List SemOp) (s : Semaphore) (tr : List Semaphore),
      s.max < U64 → s.value ≤ s.max → balancedFrom s.value ops = true →
      semTrace s ops = some tr → ∀ t ∈ tr, t.value ≤ s.max := by
  intro ops
  induction ops with
  | nil =>
    intro s tr _ _ _ htr t ht
    simp only [semTrace] at htr
    cases Option.some.inj htr
    simp at ht
  | cons op ops ih =>
    intro s tr hmax hval hbal htr t ht
    cases op with
    | acq =>
      simp only [semTrace] at htr
      rw [semStep_acq] at htr
      by_cases hle : s.value + 1 ≤ s.max
      · rw [if_pos hle] at htr
        simp only [Option.some_bind, Option.map_eq_some'] at htr
        obtain ⟨tr', htr', rfl⟩ := htr
        simp only [balancedFrom] at hbal
        rcases List.mem_cons.mp ht with rfl | hmem
        · exact hle
        · exact ih { s with value := s.value + 1 } tr' hmax hle hbal htr' t hmem
      · rw [if_neg hle] at htr
        simp at htr
    | rel =>
      simp only [semTrace] at htr
      rw [semStep_rel] at htr
      simp only [Option.some_bind, Option.map_eq_some'] at htr
      obtain ⟨tr', htr', rfl⟩ := htr
      simp only [balancedFrom, Bool.and_eq_true, decide_eq_true_eq] at hbal
      obtain ⟨hpos, hbal⟩ := hbal
      have hwrap : (s.value + (U64 - 1)) % U64 = s.value - 1 := by
        have h1 : s.value < U64 := lt_of_le_of_lt hval hmax
        simp only [U64] at h1 ⊢
        omega
      rw [hwrap] at htr'
      have hbal' : balancedFrom ((s.value + (U64 - 1)) % U64) ops = true := by
        rw [hwrap]; exact hbal
      rcases List.mem_cons.mp ht with rfl | hmem
      · simp only [hwrap]
        exact le_trans (Nat.sub_le _ _) hval
      · have := ih { s with value := s.value - 1 } tr' hmax
          (le_trans (Nat.sub_le _ _) hval) hbal htr' t hmem
        simpa using this

/-- C1: releasing a semaphore whose counter is zero is NOT detected:
`value` is a Go `uint`, so `s.value--` wraps the counter to `2^64 - 1`
and the `s.value < 0` test that guards the "Semaphore Release without
Acquire" panic can never be true — `Release` completes normally for every
state, contradicting the contract in limitmap.go line 38. -/
theorem release_at_zero_completes_and_wraps :
    (NewSemaphore 2).Release =
      Outcome.ok ({ refs := 0, max := 2, value := U64 - 1 }, 0) ∧
    ∀ (s : Semaphore) (m : String), s.Release ≠ Outcome.fatal m := by
  constructor
  · rfl
  · intro s m h
    simp only [Semaphore.Release] at h
    rw [if_neg (Nat.not_lt_zero _)] at h
    exact Outcome.noConfusion h

/-- C2: Worker.Download performs no per-host limiting: its body
(worker_main.go 447-465) contains no LimitMap operation, so it leaves the
per-host holder state untouched for every worker, network and URL — in
particular a download against a host that already has
`domainConcurrency = 2` fetches in flight proceeds without blocking —
whereas a faithful `LimitMap.Acquire` at capacity would block. -/
theorem download_ignores_domain_limit :
    (∀ (w : Worker) (net : Url → Except String HttpResponse) (u : Url)
      (st : List (String × Nat)), w.DownloadSt net u st = (w.Download net u, st)) ∧
    (plainWorker.DownloadSt helloNet uPageX [("h", 2)]).2 = [("h", 2)] ∧
    limitMapTryAcquire [("h", 2)] "h" 2 = none := by
  exact ⟨fun _ _ _ _ => rfl, rfl, rfl⟩

/-- C3: when the outer FetchTimeout elapses, Client.Fetch does not return
the `"Fetch timeout: <ms>"` error result: it first calls Client.Abort,
which is `panic("Not implemented")` (worker_main.go 318-320), so the
fetch panics and the timeout result below the Abort call is unreachable. -/
theorem fetch_timeout_panics :
    ∀ (rt : FetchResult) (urlStr : String) (ms : Nat),
      ClientFetch rt true urlStr ms = Outcome.fatal "Not implemented" := by
  intro rt urlStr ms
  rfl

/-- C4 counterexample: for the input line "HTTP://example.com/" the
emitted key is `url.String()` of the parsed URL, in which Go's `url.Parse`
has lower-cased the scheme — the key is not the raw input line. -/
theorem report_key_not_raw_line :
    reportKeyModel "HTTP://example.com/" = "http://example.com/" ∧
    "http://example.com/" ≠ "HTTP://example.com/" := by
  exact ⟨rfl, by decide⟩

/-- C4 amended: the key of a report is the serialization of the parsed
URL — the raw line with its scheme forced to lower case — and only for
lines that fail to parse is it the raw line itself. -/
theorem report_key_is_serialized_url :
    (∀ (line : String) (schemeCs restCs : List Char),
      splitAtSep line.data = some (schemeCs, restCs) →
      reportKeyModel line = String.mk (lowerChars schemeCs) ++ "://" ++ String.mk restCs) ∧
    (∀ line : String, parseAbsUrl line = none → reportKeyModel line = line) := by
  constructor
  · intro line schemeCs restCs h
    simp [reportKeyModel, parseAbsUrl, h, urlUnparse]
  · intro line h
    simp [reportKeyModel, h]

/-- Witness for C4's amended claim at the line "http://a". -/
theorem report_key_is_serialized_url_witness :
    reportKeyModel "http://a" =
      String.mk (lowerChars "http".data) ++ "://" ++ String.mk "a".data :=
  report_key_is_serialized_url.1 "http://a" "http".data "a".data (by decide)

/-- C8: for every semaphore and every completed operation sequence in
which each release is preceded by a matching acquire, `0 ≤ value ≤ max`
holds after every operation; and Acquire returns exactly the incremented
value, which never exceeds `max`. -/
theorem semaphore_invariant :
    (∀ (ops : List SemOp) (s : Semaphore) (tr : List Semaphore),
      s.max < U64 → s.value ≤ s.max → balancedFrom s.value ops = true →
      semTrace s ops = some tr → ∀ t ∈ tr, 0 ≤ t.value ∧ t.value ≤ s.max) ∧
    (∀ (s s' : Semaphore) (v : Nat), s.tryAcquire = some (s', v) →
      s'.value = s.value + 1 ∧ s'.value ≤ s.max ∧ v = s'.value) := by
  constructor
  · intro ops s tr hmax hval hbal htr t ht
    exact ⟨Nat.zero_le _, semTrace_bounded ops s tr hmax hval hbal htr t ht⟩
  · intro s s' v h
    simp only [Semaphore.tryAcquire] at h
    by_cases hle : s.value + 1 ≤ s.max
    · rw [if_pos hle] at h
      have h' := Option.some.inj h
      injection h' with h1 h2
      subst h1
      subst h2
      exact ⟨rfl, hle, rfl⟩
    · rw [if_neg hle] at h
      exact Option.noConfusion h

/-- Witness for C8 on the sequence acquire, acquire, release, release
against a fresh semaphore of capacity 2: the value after the second
acquire stays within the capacity. -/
theorem semaphore_invariant_witness :
    0 ≤ (Semaphore.mk 0 2 2).value ∧ (Semaphore.mk 0 2 2).value ≤ (NewSemaphore 2).max :=
  semaphore_invariant.1 [SemOp.acq, SemOp.acq, SemOp.rel, SemOp.rel] (NewSemaphore 2)
    [⟨0, 2, 1⟩, ⟨0, 2, 2⟩, ⟨0, 2, 1⟩, ⟨0, 2, 0⟩] (by decide) (by decide) (by decide) rfl
    ⟨0, 2, 2⟩ (by simp)

/-- The base64 alphabet is inverted by `b64idx` on 6-bit values. -/
theorem b64idx_b64chr : ∀ s, s < 64 → b64idx (b64chr s) = s := by decide

/-- No alphabet character is the padding character '=' (ASCII 61). -/
theorem b64chr_ne_pad : ∀ s, s < 64 → b64chr s ≠ 61 := by decide

/-- Round trip: decoding an encoded byte sequence restores it. -/
theorem b64_roundtrip :
    ∀ (l : List Nat), (∀ b ∈ l, b < 256) → b64decode (b64encode l) = l
  | [], _ => rfl
  | [b1], h => by
    have h1 : b1 < 256 := h b1 (by simp)
    simp only [b64encode, b64decode]
    rw [if_pos trivial]
    rw [b64idx_b64chr _ (by omega), b64idx_b64chr _ (by omega)]
    simp only [List.cons.injEq, and_true]
    omega
  | [b1, b2], h => by
    have h1 : b1 < 256 := h b1 (by simp)
    have h2 : b2 < 256 := h b2 (by simp)
    simp only [b64encode, b64decode]
    rw [if_neg (b64chr_ne_pad _ (by omega)), if_pos trivial]
    rw [b64idx_b64chr _ (by omega), b64idx_b64chr _ (by omega),
      b64idx_b64chr _ (by omega)]
    simp only [List.cons.injEq, and_true]
    constructor <;> omega
  | b1 :: b2 :: b3 :: rest, h => by
    have h1 : b1 < 256 := h b1 (by simp)
    have h2 : b2 < 256 := h b2 (by simp)
    have h3 : b3 < 256 := h b3 (by simp)
    have hrest : ∀ b ∈ rest, b < 256 := fun b hb => h b (by simp [hb])
    simp only [b64encode, b64decode]
    rw [if_neg (b64chr_ne_pad _ (by omega)), if_neg (b64chr_ne_pad _ (by omega))]
    rw [b64idx_b64chr _ (by omega), b64idx_b64chr _ (by omega),
      b64idx_b64chr _ (by omega), b64idx_b64chr _ (by omega)]
    rw [b64_roundtrip rest hrest]
    simp only [List.cons.injEq, and_true]
    refine ⟨by omega, by omega, by omega⟩

/-- C9 counterexample: with SkipBody enabled the server body "hello"
(bytes 104 101 108 108 111) is discarded before encoding, so the report's
`content` decodes to the empty byte string — not the original response
body — while `length` still reports 5. -/
theorem report_content_skipbody_mismatch :
    b64decode (encodeResult "http://h/x"
      (skipBodyWorker.Download helloNet uPageX)).content = [] ∧
    (encodeResult "http://h/x" (skipBodyWorker.Download helloNet uPageX)).length = 5 ∧
    ([] : List Nat) ≠ [104, 101, 108, 108, 111] := by
  refine ⟨rfl, rfl, by simp⟩

/-- C9 amended: when SkipBody is disabled, base64-decoding the report's
`content` yields the response body byte-for-byte and `length` equals its
byte count; under SkipBody the `content` decodes to the empty string
while `length` keeps the count of the discarded body. -/
theorem report_content_roundtrip :
    ∀ (w : Worker) (net : Url → Except String HttpResponse) (u : Url) (key : String)
      (resp : HttpResponse),
      net u = Except.ok resp → (∀ b ∈ resp.body, b < 256) →
      (w.skipBody = false →
        b64decode (encodeResult key (w.Download net u)).content = resp.body ∧
        (encodeResult key (w.Download net u)).length = (resp.body.length : Int)) ∧
      (w.skipBody = true →
        b64decode (encodeResult key (w.Download net u)).content = [] ∧
        (encodeResult key (w.Download net u)).length = (resp.body.length : Int)) := by
  intro w net u key resp hnet hb
  constructor
  · intro hskip
    simp only [Worker.Download, clientFetch, hnet, hskip, encodeResult, if_neg Bool.false_ne_true]
    exact ⟨b64_roundtrip resp.body hb, trivial⟩
  · intro hskip
    simp only [Worker.Download, clientFetch, hnet, hskip, encodeResult, if_pos rfl]
    exact ⟨rfl, rfl⟩

/-- Witness for C9's amended claim: body "hello" round-trips and its
length is reported. -/
theorem report_content_roundtrip_witness :
    b64decode (encodeResult "k" (plainWorker.Download helloNet uPage2)).content =
      [104, 101, 108, 108, 111] ∧
    (encodeResult "k" (plainWorker.Download helloNet uPage2)).length = 5 :=
  (report_content_roundtrip plainWorker helloNet uPage2 "k"
    ⟨"200 OK", 200, [], [104, 101, 108, 108, 111]⟩ rfl (by decide)).1 rfl

/-- C10: with SkipBody enabled, Worker.Download returns exactly the
result of the underlying fetch with `Body` replaced by nil: every other
field — and in particular Length, Success, Status, StatusCode and
Headers — is the one of the real response. -/
theorem skipbody_frame :
    ∀ (w : Worker) (net : Url → Except String HttpResponse) (u : Url),
      w.skipBody = true →
      w.Download net u = { ({ w with skipBody := false }).Download net u with body := [] } ∧
      ∀ (resp : HttpResponse), net u = Except.ok resp →
        (w.Download net u).body = [] ∧
        (w.Download net u).length = (resp.body.length : Int) ∧
        (w.Download net u).success = true ∧
        (w.Download net u).status = resp.status ∧
        (w.Download net u).statusCode = resp.statusCode ∧
        (w.Download net u).headers = resp.headers := by
  intro w net u hskip
  constructor
  · simp [Worker.Download, hskip]
  · intro resp hnet
    simp [Worker.Download, hskip, clientFetch, hnet]

/-- Witness for C10: the skip-body worker's download of a "hello" page is
the plain download with the body dropped. -/
theorem skipbody_frame_witness :
    skipBodyWorker.Download helloNet uPageX =
      { ({ skipBodyWorker with skipBody := false }).Download helloNet uPageX with
        body := [] } :=
  (skipbody_frame skipBodyWorker helloNet uPageX rfl).1

/-- Helper for C5: one pass of the redirect loop entered at index
`redirect` performs at most `followRedirects + 1 - redirect` downloads. -/
theorem floop_hops_le :
    ∀ (fuel : Nat) (w : Worker) (env : Env) (orig : Url) (redirect : Nat) (u : Url)
      (r : FetchResult) (n : Nat),
      redirect ≤ w.followRedirects →
      (sys w env fuel).floop orig redirect u = some (r, n) →
      redirect + n ≤ w.followRedirects + 1 := by
  intro fuel
  induction fuel with
  | zero =>
    intro w env orig redirect u r n _ h
    simp only [sys] at h
    exact Option.noConfusion h
  | succ f ih =>
    intro w env orig redirect u r n hred h
    simp only [sys] at h
    split at h
    · injection h with h'
      injection h' with h1 h2
      omega
    · split at h
      · exact Option.noConfusion h
      · injection h with h'
        injection h' with h1 h2
        omega
      · split at h
        · split at h
          · injection h with h'
            injection h' with h1 h2
            omega
          · rename_i u2 hparse
            split at h
            · rename_i hcond
              split at h
              · exact Option.noConfusion h
              · rename_i r' n' heq2
                injection h with h'
                injection h' with h1 h2
                have := ih w env orig (redirect + 1) u2 r' n' hcond heq2
                omega
            · injection h with h'
              injection h' with h1 h2
              omega
        · injection h with h'
          injection h' with h1 h2
          omega

/-- C5: Worker.Fetch performs at most `followRedirects + 1` downloads
(hops); a status is followed as a redirect exactly when it is 301, 302,
303 or 307; and with `followRedirects = 0` a 302 response (with a
resolvable Location) is returned as the terminal result after exactly one
hop. -/
theorem fetch_redirect_bound :
    (∀ (w : Worker) (env : Env) (fuel : Nat) (u : Url) (r : FetchResult) (n : Nat),
      fetchGo w env fuel u = some (r, n) → n ≤ w.followRedirects + 1) ∧
    (∀ s : Nat, ShouldRedirect s = true ↔ s = 301 ∨ s = 302 ∨ s = 303 ∨ s = 307) ∧
    (∀ (w : Worker) (env : Env) (fuel : Nat) (u : Url) (u2 : Url),
      w.followRedirects = 0 → w.skipRobots = true →
      ¬(u.scheme = "" ∨ u.host = "") →
      (w.Download env.net u).statusCode = 302 →
      env.parseRel u (headersGet (w.Download env.net u).headers "Location") =
        Except.ok u2 →
      fetchGo w env (fuel + 1 + 1) u = some (w.Download env.net u, 1)) := by
  refine ⟨?_, ?_, ?_⟩
  · intro w env fuel u r n h
    cases fuel with
    | zero => exact Option.noConfusion h
    | succ f =>
      have h' : (sys w env f).floop u 0 u = some (r, n) := h
      have := floop_hops_le f w env u 0 u r n (Nat.zero_le _) h'
      omega
  · intro s
    simp [ShouldRedirect, or_assoc]
  · intro w env fuel u u2 hfr hskip hvalid hcode hparse
    show (sys w env (fuel + 1)).floop u 0 u = _
    simp only [sys]
    rw [if_neg hvalid]
    simp only [hskip, Bool.true_or, hcode, hparse, hfr]
    rfl

/-- Witness for C5: a worker with `--redirects=0` against a server that
always answers 302 returns the 302 download as the terminal result with
one hop. -/
theorem fetch_redirect_bound_witness :
    fetchGo noRedirectWorker advEnv 5 ⟨"http", "h", "/a"⟩ =
      some (noRedirectWorker.Download advEnv.net ⟨"http", "h", "/a"⟩, 1) :=
  fetch_redirect_bound.2.2 noRedirectWorker advEnv 3 ⟨"http", "h", "/a"⟩
    ⟨"http", "h", "/page2"⟩ rfl rfl (by decide) rfl rfl

/-- Helper for C6: against the adversarial server the whole mutual
recursion fails to bottom out at every depth: the robots.txt fetch
redirects to /page2, whose robots consultation fetches robots.txt
again. -/
theorem adv_diverges_aux :
    ∀ f : Nat,
      ((sys advWorker advEnv f).fetch uRobotsH = none) ∧
      (∀ orig, (sys advWorker advEnv f).floop orig 0 uRobotsH = none) ∧
      (∀ orig r, (sys advWorker advEnv f).floop orig r uPage2 = none) ∧
      ((sys advWorker advEnv f).ask uPage2 = none) := by
  intro f
  induction f with
  | zero => exact ⟨rfl, fun _ => rfl, fun _ _ => rfl, rfl⟩
  | succ f ih =>
    obtain ⟨ih1, ih2, ih3, ih4⟩ := ih
    simp only [advWorker, advEnv, uRobotsH, uPage2] at ih1 ih2 ih3 ih4
    refine ⟨?_, ?_, ?_, ?_⟩
    · exact ih2 uRobotsH
    · intro orig
      simp only [sys]
      simp [advWorker, advEnv, uRobotsH, uPage2, Worker.Download, clientFetch,
        headersGet, ShouldRedirect, ih3]
    · intro orig r
      simp only [sys]
      simp [advWorker, advEnv, uPage2, ih4]
    · simp only [sys]
      simp [advWorker, advEnv, uPage2, uRobotsH, ih1]

/-- C6 counterexample: with `followRedirects = 1` and robots enabled,
a server whose /robots.txt answers `302 Location: /page2` drives
Worker.Fetch of http://h/page2 into unbounded Fetch/AskRobots recursion:
the `path == "/robots.txt"` escape only covers the first hop of the inner
robots fetch, and the redirected hop re-enters robots consultation. -/
theorem robots_redirect_diverges : fetchDiverges advWorker advEnv uPage2 := by
  intro fuel
  cases fuel with
  | zero => rfl
  | succ f => exact (adv_diverges_aux f).2.2.1 uPage2 0

/-- Helper for C6 amended: with `followRedirects = 0`, one loop pass that
skips robots consultation (SkipRobots or a /robots.txt path) finishes at
depth one. -/
theorem floop_isSome_skip :
    ∀ (w : Worker) (env : Env) (f : Nat) (orig : Url) (red : Nat) (u : Url),
      w.followRedirects = 0 → (w.skipRobots || u.path == "/robots.txt") = true →
      ((sys w env (f + 1)).floop orig red u).isSome = true := by
  intro w env f orig red u hfr hskip
  simp only [sys]
  by_cases hv : u.scheme = "" ∨ u.host = ""
  · rw [if_pos hv]; rfl
  · rw [if_neg hv]
    simp only [hskip, if_pos trivial]
    split
    · split
      · rfl
      · rw [hfr, if_neg (by omega)]
        rfl
    · rfl

/-- Evaluation lemma: a loop pass on an invalid URL returns the
"Incorrect URL" error with no download. -/
theorem floop_bad_url :
    ∀ (w : Worker) (env : Env) (fuel : Nat) (orig : Url) (red : Nat) (u : Url),
      u.scheme = "" ∨ u.host = "" →
      (sys w env (fuel + 1)).floop orig red u =
        some (ErrorResult u.toString ("Incorrect URL: " ++ u.toString), 0) := by
  intro w env fuel orig red u hv
  simp only [sys]
  rw [if_pos hv]

/-- Evaluation lemma: AskRobots at depth `fuel + 1`, given the result of
the inner robots fetch at depth `fuel`. -/
theorem ask_succ_eval :
    ∀ (w : Worker) (env : Env) (fuel : Nat) (u : Url) (fr : FetchResult) (c : Nat),
      (sys w env fuel).fetch (Url.mk u.scheme u.host "/robots.txt") = some (fr, c) →
      (sys w env (fuel + 1)).ask u =
        (if fr.success = false then
          some (false, some { fr with status := "Robots download error: " ++ fr.status })
        else
          match env.robots fr.statusCode fr.body with
          | Except.error e =>
            some (false, some { fr with status := "Robots parse error: " ++ e })
          | Except.ok test =>
            match test u.path with
            | Except.error e =>
              some (false, some (ErrorResult u.toString ("Robots test error: " ++ e)))
            | Except.ok allow =>
              if allow = false then
                some (false, some (ErrorResult u.toString "Robots disallow"))
              else some (true, none)) := by
  intro w env fuel u fr c h
  simp only [sys]
  rw [h]

/-- Evaluation lemma: a loop pass whose robots gate resolved to
`(allow, rOpt)` either proceeds to the download (allow) or returns the
robots result (deny). -/
theorem floop_gate_ask :
    ∀ (w : Worker) (env : Env) (fuel : Nat) (orig : Url) (red : Nat) (u : Url)
      (allow : Bool) (rOpt : Option FetchResult),
      ¬(u.scheme = "" ∨ u.host = "") →
      (w.skipRobots || u.path == "/robots.txt") = false →
      (sys w env fuel).ask u = some (allow, rOpt) →
      (sys w env (fuel + 1)).floop orig red u =
        (if allow = true then
          (if ShouldRedirect (w.Download env.net u).statusCode = true then
            match env.parseRel u (headersGet (w.Download env.net u).headers "Location") with
            | Except.error e => some (ErrorResult orig.toString e, 1)
            | Except.ok u2 =>
              if red + 1 ≤ w.followRedirects then
                match (sys w env fuel).floop orig (red + 1) u2 with
                | none => none
                | some (r, n) => some (r, n + 1)
              else some (w.Download env.net u, 1)
          else some (w.Download env.net u, 1))
        else
          match rOpt with
          | some fr => some (fr, 0)
          | none => some (nilDeref, 0)) := by
  intro w env fuel orig red u allow rOpt hv hg hask
  simp only [sys]
  rw [if_neg hv]
  simp only [hg, Bool.false_eq_true, if_false]
  rw [hask]
  cases allow
  · cases rOpt <;> rfl
  · rfl

/-- Helper for C6 amended: AskRobots always finishes at depth three when
no redirect may be followed. -/
theorem ask_isSome :
    ∀ (w : Worker) (env : Env) (f : Nat) (u : Url),
      w.followRedirects = 0 →
      ((sys w env (f + 1 + 1 + 1)).ask u).isSome = true := by
  intro w env f u hfr
  have h1 : ((sys w env (f + 1)).floop (Url.mk u.scheme u.host "/robots.txt") 0
      (Url.mk u.scheme u.host "/robots.txt")).isSome = true :=
    floop_isSome_skip w env f _ 0 _ hfr (by simp)
  obtain ⟨x, hx⟩ := Option.isSome_iff_exists.mp h1
  obtain ⟨fr, c⟩ := x
  have hf : (sys w env (f + 1 + 1)).fetch (Url.mk u.scheme u.host "/robots.txt") =
      some (fr, c) := hx
  rw [ask_succ_eval w env (f + 1 + 1) u fr c hf]
  split
  · rfl
  · split
    · rfl
    · split
      · rfl
      · split
        · rfl
        · rfl

/-- C6 amended: when `followRedirects = 0` the `/robots.txt` escape does
prevent unbounded recursion — Worker.Fetch finishes within recursion
depth 5 for every server behavior and every URL. (With
`followRedirects ≥ 1` this fails: see the adversarial divergence.) -/
theorem fetch_terminates_no_redirects :
    ∀ (w : Worker) (env : Env) (u : Url) (fuel : Nat),
      w.followRedirects = 0 → 5 ≤ fuel →
      (fetchGo w env fuel u).isSome = true := by
  intro w env u fuel hfr hfuel
  obtain ⟨k, rfl⟩ : ∃ k, fuel = k + 5 := ⟨fuel - 5, by omega⟩
  show ((sys w env (k + 3 + 1)).floop u 0 u).isSome = true
  by_cases hv : u.scheme = "" ∨ u.host = ""
  · rw [floop_bad_url w env (k + 3) u 0 u hv]
    rfl
  · by_cases hg : (w.skipRobots || u.path == "/robots.txt") = true
    · exact floop_isSome_skip w env (k + 3) u 0 u hfr hg
    · have hgf : (w.skipRobots || u.path == "/robots.txt") = false := by
        revert hg
        cases w.skipRobots || u.path == "/robots.txt" <;> simp
      have hsome : ((sys w env (k + 3)).ask u).isSome = true := ask_isSome w env k u hfr
      obtain ⟨x, hask⟩ := Option.isSome_iff_exists.mp hsome
      obtain ⟨allow, rOpt⟩ := x
      rw [floop_gate_ask w env (k + 3) u 0 u allow rOpt hv hgf hask]
      cases allow
      · cases rOpt
        · rfl
        · rfl
      · rw [if_pos rfl, hfr]
        split
        · split <;> rfl
        · rfl

/-- Witness for C6's amended claim: a no-redirect worker finishes at
depth 5 against the disallowing server. -/
theorem fetch_terminates_no_redirects_witness :
    (fetchGo noRedirectWorker disallowEnv 5 uPageX).isSome = true :=
  fetch_terminates_no_redirects noRedirectWorker disallowEnv uPageX 5 rfl (by omega)

/-- Helper for C7: a loop pass whose robots gate denies returns the
robots result with no download. -/
theorem floop_robots_deny :
    ∀ (w : Worker) (env : Env) (fuel : Nat) (orig : Url) (red : Nat) (u : Url)
      (fr : FetchResult),
      ¬(u.scheme = "" ∨ u.host = "") →
      (w.skipRobots || u.path == "/robots.txt") = false →
      (sys w env fuel).ask u = some (false, some fr) →
      (sys w env (fuel + 1)).floop orig red u = some (fr, 0) := by
  intro w env fuel orig red u fr hv hg hask
  rw [floop_gate_ask w env fuel orig red u false (some fr) hv hg hask]
  rfl

/-- C7: with robots consultation enabled and applying to the URL, Fetch
returns: on a failed robots download, the failure with status prefixed
"Robots download error: "; on a robots parse failure, the robots fetch
result with status prefixed "Robots parse error: "; and when the robots
predicate disallows the path, an error result (Success = false) with
status exactly "Robots disallow". -/
theorem robots_gate_statuses :
    ∀ (w : Worker) (env : Env) (f : Nat) (u : Url) (fr : FetchResult) (c : Nat),
      w.skipRobots = false → u.path ≠ "/robots.txt" →
      u.scheme ≠ "" → u.host ≠ "" →
      (sys w env f).fetch (Url.mk u.scheme u.host "/robots.txt") = some (fr, c) →
      (fr.success = false →
        fetchGo w env (f + 1 + 1 + 1) u =
          some ({ fr with status := "Robots download error: " ++ fr.status }, 0)) ∧
      (∀ e, fr.success = true → env.robots fr.statusCode fr.body = Except.error e →
        fetchGo w env (f + 1 + 1 + 1) u =
          some ({ fr with status := "Robots parse error: " ++ e }, 0)) ∧
      (∀ test, fr.success = true → env.robots fr.statusCode fr.body = Except.ok test →
        test u.path = Except.ok false →
        fetchGo w env (f + 1 + 1 + 1) u =
          some (ErrorResult u.toString "Robots disallow", 0)) := by
  intro w env f u fr c hskip hpath hs hh hfetch
  have hv : ¬(u.scheme = "" ∨ u.host = "") := by
    intro h
    rcases h with h | h
    · exact hs h
    · exact hh h
  have hg : (w.skipRobots || u.path == "/robots.txt") = false := by
    rw [hskip]
    simp [hpath]
  refine ⟨?_, ?_, ?_⟩
  · intro hsucc
    have hask : (sys w env (f + 1)).ask u =
        some (false, some { fr with status := "Robots download error: " ++ fr.status }) := by
      rw [ask_succ_eval w env f u fr c hfetch]
      rw [if_pos hsucc]
    show (sys w env (f + 1 + 1)).floop u 0 u = _
    exact floop_robots_deny w env (f + 1) u 0 u _ hv hg hask
  · intro e hsucc herr
    have hask : (sys w env (f + 1)).ask u =
        some (false, some { fr with status := "Robots parse error: " ++ e }) := by
      rw [ask_succ_eval w env f u fr c hfetch]
      rw [if_neg (by simp [hsucc]), herr]
    show (sys w env (f + 1 + 1)).floop u 0 u = _
    exact floop_robots_deny w env (f + 1) u 0 u _ hv hg hask
  · intro test hsucc hok htest
    have hask : (sys w env (f + 1)).ask u =
        some (false, some (ErrorResult u.toString "Robots disallow")) := by
      rw [ask_succ_eval w env f u fr c hfetch]
      rw [if_neg (by simp [hsucc]), hok]
      simp only [htest]
      rfl
    show (sys w env (f + 1 + 1)).floop u 0 u = _
    exact floop_robots_deny w env (f + 1) u 0 u _ hv hg hask

/-- Witness for C7: against the all-disallowing robots server, fetching
http://h/x yields the "Robots disallow" error result. -/
theorem robots_gate_statuses_witness :
    fetchGo plainWorker disallowEnv 5 uPageX =
      some (ErrorResult "http://h/x" "Robots disallow", 0) := by
  have h := (robots_gate_statuses plainWorker disallowEnv 2 uPageX
    (clientFetch "http://h/robots.txt" (Except.ok ⟨"200 OK", 200, [], []⟩)) 1
    rfl (by decide) (by decide) (by decide) rfl).2.2
  exact h (fun _ => Except.ok false) rfl rfl rfl
